import Mathlib

/-!
Verification of the compass task tracker's tree consistency engine.

The definitions below are a shallow embedding of the Go source:
the SQLite tables become lists of row structures, each store operation
becomes a pure function on a database value, and fallible operations
(SQL statements that report `sql.ErrNoRows`) return `Option`.
SQL `ORDER BY sort_order ASC` is modelled with insertion sort on the
`sortOrder` field, and the spec's integer mean of completion values,
truncated toward zero, is written with `Int.tdiv` (truncating division).
-/

namespace Compass

/-- Row of the `categories` table (`migrate`): id, name, description, sort_order. -/
structure CatRow where
  id : String
  name : String
  description : String
  sortOrder : Int
  deriving DecidableEq

/-- Row of the `tasks` table (`migrate`): id, category_id, name, description,
completion, sort_order. -/
structure TaskRow where
  id : String
  categoryId : String
  name : String
  description : String
  completion : Int
  sortOrder : Int
  deriving DecidableEq

/-- Row of the `subtasks` table (`migrate`): id, task_id, category_id
(denormalized), name, description, completion, sort_order. -/
structure SubRow where
  id : String
  taskId : String
  categoryId : String
  name : String
  description : String
  completion : Int
  sortOrder : Int
  deriving DecidableEq

/-- Row of the `work_logs` table (`migrate`): id, category_id, task_id,
optional subtask_id, hours_worked (REAL, modelled as a rational),
work_description, completion_estimate, created_at (unix seconds). -/
structure WorkLogRow where
  id : String
  categoryId : String
  taskId : String
  subtaskId : Option String
  hoursWorked : ℚ
  workDescription : String
  completionEstimate : Int
  createdAt : Int
  deriving DecidableEq

/-- The persisted state: the four tables created by `migrate`. -/
structure DB where
  categories : List CatRow
  tasks : List TaskRow
  subtasks : List SubRow
  workLogs : List WorkLogRow
  deriving DecidableEq

/-! ### Ordered reads

`getTasksForCategory` / `getSubtasksForTask` / `GetCategories` read the rows
of one parent `ORDER BY sort_order ASC`. -/

/-- Rows of a category, ordered by `sort_order` (`getTasksForCategory`). -/
def getTasksForCategory (db : DB) (catID : String) : List TaskRow :=
  List.insertionSort (fun a b => a.sortOrder ≤ b.sortOrder)
    (db.tasks.filter (fun t => t.categoryId = catID))

/-- Rows of a task, ordered by `sort_order` (`getSubtasksForTask`). -/
def getSubtasksForTask (db : DB) (taskID : String) : List SubRow :=
  List.insertionSort (fun a b => a.sortOrder ≤ b.sortOrder)
    (db.subtasks.filter (fun s => s.taskId = taskID))

/-- All categories ordered by `sort_order` (the first query of `GetCategories`). -/
def GetCategoriesOrdered (db : DB) : List CatRow :=
  List.insertionSort (fun a b => a.sortOrder ≤ b.sortOrder) db.categories

/-- `GetTask`: `SELECT ... FROM tasks WHERE id = ?`; `sql.ErrNoRows` (the
`NotFound` condition) is modelled by `none`. -/
def GetTask (db : DB) (id : String) : Option TaskRow :=
  db.tasks.find? (fun t => t.id = id)

/-! ### Reorder operations

Each `Reorder` loops over the caller-supplied id list and runs
`UPDATE ... SET sort_order = i WHERE id = ? AND parent = ?`
(no parent clause for categories). -/

/-- Loop body of `ReorderTasks`: one `UPDATE tasks SET sort_order = i WHERE
id = ? AND category_id = ?` per listed id, with `i` the running index. -/
def reorderTasksAux (catID : String) : List String → Int → List TaskRow → List TaskRow
  | [], _, rows => rows
  | tid :: rest, i, rows =>
      reorderTasksAux catID rest (i + 1)
        (rows.map fun r =>
          if r.id = tid ∧ r.categoryId = catID then { r with sortOrder := i } else r)

/-- `ReorderTasks(catID, taskIDs)`. -/
def ReorderTasks (catID : String) (taskIDs : List String) (rows : List TaskRow) : List TaskRow :=
  reorderTasksAux catID taskIDs 0 rows

/-- Loop body of `ReorderSubtasks`: `UPDATE subtasks SET sort_order = i WHERE
id = ? AND task_id = ?`. -/
def reorderSubtasksAux (taskID : String) : List String → Int → List SubRow → List SubRow
  | [], _, rows => rows
  | sid :: rest, i, rows =>
      reorderSubtasksAux taskID rest (i + 1)
        (rows.map fun r =>
          if r.id = sid ∧ r.taskId = taskID then { r with sortOrder := i } else r)

/-- `ReorderSubtasks(taskID, subIDs)`. -/
def ReorderSubtasks (taskID : String) (subIDs : List String) (rows : List SubRow) : List SubRow :=
  reorderSubtasksAux taskID subIDs 0 rows

/-- Loop body of `ReorderCategories`: `UPDATE categories SET sort_order = i
WHERE id = ?` (no parent scope: categories are the top level). -/
def reorderCategoriesAux : List String → Int → List CatRow → List CatRow
  | [], _, rows => rows
  | cid :: rest, i, rows =>
      reorderCategoriesAux rest (i + 1)
        (rows.map fun r => if r.id = cid then { r with sortOrder := i } else r)

/-- `ReorderCategories(ids)`. -/
def ReorderCategories (ids : List String) (rows : List CatRow) : List CatRow :=
  reorderCategoriesAux ids 0 rows

/-- Demonstration rows for the reorder frame property: a task and a subtask
that are listed in a reorder call aimed at a different parent. -/
def frameTaskRows : List TaskRow :=
  [{ id := "tA", categoryId := "cat1", name := "A", description := "",
     completion := 10, sortOrder := 7 },
   { id := "tB", categoryId := "cat2", name := "B", description := "",
     completion := 20, sortOrder := 1 }]

def frameSubRows : List SubRow :=
  [{ id := "sA", taskId := "task1", categoryId := "cat1", name := "A",
     description := "", completion := 10, sortOrder := 9 }]

/-- Row-level effect of `ReorderTasks` on a distinct id list: a row in the
target category whose id is listed gets `sort_order = base + index`. -/
def reorderedTask (catID : String) (ids : List String) (base : Int) (r : TaskRow) : TaskRow :=
  if r.id ∈ ids ∧ r.categoryId = catID then
    { r with sortOrder := base + ((ids.indexOf r.id : ℕ) : Int) }
  else r

/-- Row-level effect of `ReorderSubtasks`. -/
def reorderedSub (taskID : String) (ids : List String) (base : Int) (r : SubRow) : SubRow :=
  if r.id ∈ ids ∧ r.taskId = taskID then
    { r with sortOrder := base + ((ids.indexOf r.id : ℕ) : Int) }
  else r

/-- Row-level effect of `ReorderCategories`. -/
def reorderedCat (ids : List String) (base : Int) (r : CatRow) : CatRow :=
  if r.id ∈ ids then
    { r with sortOrder := base + ((ids.indexOf r.id : ℕ) : Int) }
  else r

/-- A small concrete store used to exercise the reorder/read round trip. -/
def reorderDemoDB : DB :=
  { categories :=
      [{ id := "c1", name := "Work", description := "", sortOrder := 0 },
       { id := "c2", name := "Home", description := "", sortOrder := -1 }],
    tasks :=
      [{ id := "t1", categoryId := "c1", name := "a", description := "",
         completion := 0, sortOrder := 1 },
       { id := "t2", categoryId := "c1", name := "b", description := "",
         completion := 0, sortOrder := 2 },
       { id := "t3", categoryId := "c1", name := "c", description := "",
         completion := 0, sortOrder := 3 }],
    subtasks :=
      [{ id := "s1", taskId := "t1", categoryId := "c1", name := "x",
         description := "", completion := 0, sortOrder := 1 },
       { id := "s2", taskId := "t1", categoryId := "c1", name := "y",
         description := "", completion := 0, sortOrder := 2 }],
    workLogs := [] }

/-! ### Subtask mutations

The current store revision (part_008) inserts, updates and deletes subtask
rows without touching the owning task's row: no operation recomputes the
task's stored completion from its subtasks. -/

/-- Completion values of the subtasks of one task, in table order (the
`completion` column of the rows `getSubtasksForTask` reads). -/
def subtaskCompletions (db : DB) (taskID : String) : List Int :=
  (db.subtasks.filter (fun s => s.taskId = taskID)).map (fun s => s.completion)

/-- Effect of `UPDATE subtasks SET name = ?, description = ?, completion = ?
WHERE id = ?` on one row. -/
def subUpdateRow (sub : SubRow) (r : SubRow) : SubRow :=
  if r.id = sub.id then
    { r with name := sub.name, description := sub.description,
             completion := sub.completion }
  else r

/-- `UpdateSubtask(sub)`: `UPDATE subtasks SET name, description, completion
WHERE id = ? RETURNING ...` (no matching row is `sql.ErrNoRows`, modelled by
`none`). The statement is the whole operation: the owning task's row is not
updated. -/
def UpdateSubtask (db : DB) (sub : SubRow) : Option (DB × SubRow) :=
  match db.subtasks.find? (fun r => r.id = sub.id) with
  | none => none
  | some old =>
      some ({ db with subtasks := db.subtasks.map (subUpdateRow sub) },
        subUpdateRow sub old)

/-- `MAX(sort_order)` scanned through `sql.NullInt64`: NULL reads as 0. -/
def sqlMaxOrder : List Int → Int
  | [] => 0
  | x :: xs => xs.foldl max x

/-- `AddSubtask(taskID, name)`: in one transaction, read `MAX(sort_order)`
of the task's subtasks, then `INSERT INTO subtasks (id, task_id,
category_id, name, sort_order) SELECT ?1, ?2, category_id, ?3, ?4 FROM tasks
WHERE id = ?2` (no parent task is `sql.ErrNoRows`; description and
completion take their column defaults), and commit. The task's row — its
completion included — is not updated. -/
def AddSubtask (db : DB) (taskID : String) (newID : String) (name : String) :
    Option (DB × SubRow) :=
  match db.tasks.find? (fun t => t.id = taskID) with
  | none => none
  | some t =>
      let order :=
        sqlMaxOrder ((db.subtasks.filter (fun s => s.taskId = taskID)).map
          (fun s => s.sortOrder)) + 1
      let sub : SubRow :=
        { id := newID, taskId := taskID, categoryId := t.categoryId,
          name := name, description := "", completion := 0, sortOrder := order }
      some ({ db with subtasks := db.subtasks ++ [sub] }, sub)

/-- `DeleteSubtask(id)`: `DELETE FROM subtasks WHERE id = ? RETURNING ...`
(no matching row is `sql.ErrNoRows`). Only the subtask row is removed; the
owning task's row is left untouched. -/
def DeleteSubtask (db : DB) (id : String) : Option (DB × SubRow) :=
  match db.subtasks.find? (fun r => r.id = id) with
  | none => none
  | some removed =>
      some ({ db with subtasks := db.subtasks.filter (fun r => ¬ r.id = id) }, removed)

/-! ### Work-log ledger -/

/-- `AddWorkLogForTask`: `INSERT INTO work_logs ... SELECT ?, category_id, ?,
NULL, ?, ?, ?, ? FROM tasks WHERE id = ?` (no owning task is
`sql.ErrNoRows`), then `UPDATE tasks SET completion = estimate WHERE id = ?`,
in one transaction. The stored `created_at` is the caller-supplied timestamp
when one is given, else the insertion time `now`; the optional-timestamp
parameter itself is modelled from the spec (§3, §4.4) — the store revision
with that parameter, which the web layer calls, is not under `src/`
(part_008 always uses `time.Now()`). -/
def AddWorkLogForTask (db : DB) (newID taskID : String) (hoursWorked : ℚ)
    (workDescription : String) (completionEstimate : Int)
    (now : Int) (explicitTime : Option Int) : Option (DB × WorkLogRow) :=
  match db.tasks.find? (fun t => t.id = taskID) with
  | none => none
  | some t =>
      let wl : WorkLogRow :=
        { id := newID, categoryId := t.categoryId, taskId := taskID,
          subtaskId := none, hoursWorked := hoursWorked,
          workDescription := workDescription,
          completionEstimate := completionEstimate,
          createdAt := explicitTime.getD now }
      some
        ({ db with
           workLogs := db.workLogs ++ [wl],
           tasks := db.tasks.map fun x =>
             if x.id = taskID then { x with completion := completionEstimate } else x },
         wl)

/-- `AddWorkLogForSubtask`: insert the log with the subtask's denormalized
category and task ids, then `UPDATE subtasks SET completion = estimate WHERE
id = ?`. The optional timestamp is modelled from the spec as in
`AddWorkLogForTask`. -/
def AddWorkLogForSubtask (db : DB) (newID subtaskID : String) (hoursWorked : ℚ)
    (workDescription : String) (completionEstimate : Int)
    (now : Int) (explicitTime : Option Int) : Option (DB × WorkLogRow) :=
  match db.subtasks.find? (fun s => s.id = subtaskID) with
  | none => none
  | some s =>
      let wl : WorkLogRow :=
        { id := newID, categoryId := s.categoryId, taskId := s.taskId,
          subtaskId := some subtaskID, hoursWorked := hoursWorked,
          workDescription := workDescription,
          completionEstimate := completionEstimate,
          createdAt := explicitTime.getD now }
      some
        ({ db with
           workLogs := db.workLogs ++ [wl],
           subtasks := db.subtasks.map fun x =>
             if x.id = subtaskID then { x with completion := completionEstimate } else x },
         wl)

/-- The essence of `handleCreateTaskWorkLog` (server.go): reject unparseable
`hours_worked` or `completion_estimate` form values with a 400 (modelled by
`none` inputs), choose the custom timestamp only when the `use_custom_time`
box was checked and the time parsed, and forward to the store. The handler
performs no check on whether the task currently has subtasks. -/
def handleCreateTaskWorkLog (db : DB) (taskID newID : String)
    (hoursField : Option ℚ) (estimateField : Option Int)
    (workDescription : String) (useCustomTime : Bool) (parsedTime : Option Int)
    (now : Int) : Option (DB × WorkLogRow) :=
  match hoursField, estimateField with
  | some hours, some est =>
      AddWorkLogForTask db newID taskID hours workDescription est now
        (if useCustomTime then parsedTime else none)
  | _, _ => none

/-! ### Move and cascading delete -/

/-- First statement of `MoveTask`: `UPDATE tasks SET sort_order = sort_order
+ 1 WHERE category_id = ? AND sort_order >= ?`. -/
def moveShiftPass (newCatID : String) (newIndex : Int) (t : TaskRow) : TaskRow :=
  if t.categoryId = newCatID ∧ newIndex ≤ t.sortOrder then
    { t with sortOrder := t.sortOrder + 1 }
  else t

/-- Second statement of `MoveTask`: `UPDATE tasks SET category_id = ?,
sort_order = ? WHERE id = ?`. -/
def moveAssignPass (taskID newCatID : String) (newIndex : Int) (t : TaskRow) : TaskRow :=
  if t.id = taskID then { t with categoryId := newCatID, sortOrder := newIndex } else t

/-- `MoveTask(taskID, newCatID, newIndex)`: both UPDATE statements in one
transaction. -/
def MoveTask (db : DB) (taskID newCatID : String) (newIndex : Int) : DB :=
  { db with
    tasks := (db.tasks.map (moveShiftPass newCatID newIndex)).map
      (moveAssignPass taskID newCatID newIndex) }

/-- `DeleteCategory(id)`: `DELETE FROM categories WHERE id = ? RETURNING ...`
(no matching row is `sql.ErrNoRows`). With `PRAGMA foreign_keys = ON`
(`NewSQLiteStore`) the `ON DELETE CASCADE` clauses of the schema (`migrate`)
also remove every task of the category, every subtask reachable through
either its `category_id` or its `task_id` foreign key, and every work log
reachable through any of its three foreign keys. -/
def DeleteCategory (db : DB) (id : String) : Option (DB × CatRow) :=
  match db.categories.find? (fun c => c.id = id) with
  | none => none
  | some removed =>
      let deadTaskIds := (db.tasks.filter (fun t => t.categoryId = id)).map (fun t => t.id)
      let deadSubIds :=
        (db.subtasks.filter (fun s => s.categoryId = id ∨ s.taskId ∈ deadTaskIds)).map
          (fun s => s.id)
      some
        ({ categories := db.categories.filter (fun c => ¬ c.id = id),
           tasks := db.tasks.filter (fun t => ¬ t.categoryId = id),
           subtasks := db.subtasks.filter
             (fun s => ¬ (s.categoryId = id ∨ s.taskId ∈ deadTaskIds)),
           workLogs := db.workLogs.filter
             (fun w => ¬ (w.categoryId = id ∨ w.taskId ∈ deadTaskIds ∨
               (∃ sid, w.subtaskId = some sid ∧ sid ∈ deadSubIds))) },
         removed)

/-! ### Visibility filter (web layer) -/

/-- Subtask of the web layer's domain tree. The `public` flag is modelled from
the spec (§3) and the web layer's own use of `s.Public`; the `models.go`
snapshot under `src/` predates the flag. -/
structure SubtaskT where
  id : String
  name : String
  completion : Int
  public : Bool
  deriving DecidableEq

/-- Task of the domain tree, with its `public` flag and ordered subtasks. -/
structure TaskT where
  id : String
  name : String
  completion : Int
  public : Bool
  subtasks : List SubtaskT
  deriving DecidableEq

/-- Category of the domain tree, with its `public` flag and ordered tasks. -/
structure CategoryT where
  id : String
  name : String
  public : Bool
  tasks : List TaskT
  deriving DecidableEq

/-- Inner loop of `filterPublicCategories`: keep only subtasks whose
`public` flag is set. -/
def filterPublicSubtasks : List SubtaskT → List SubtaskT
  | [] => []
  | s :: rest =>
      if s.public then s :: filterPublicSubtasks rest else filterPublicSubtasks rest

/-- Middle loop of `filterPublicCategories`: skip non-public tasks, and for
surviving tasks keep only public subtasks. -/
def filterPublicTasks : List TaskT → List TaskT
  | [] => []
  | t :: rest =>
      if t.public then
        { t with subtasks := filterPublicSubtasks t.subtasks } :: filterPublicTasks rest
      else filterPublicTasks rest

/-- `filterPublicCategories` (server.go): skip non-public categories, and for
surviving categories keep only public tasks (with only public subtasks). -/
def filterPublicCategories : List CategoryT → List CategoryT
  | [] => []
  | c :: rest =>
      if c.public then
        { c with tasks := filterPublicTasks c.tasks } :: filterPublicCategories rest
      else filterPublicCategories rest

/-- The visibility step of `handleIndex`: the tree is filtered exactly when
the caller is not authenticated. -/
def handleIndexVisible (isAuthenticated : Bool) (cats : List CategoryT) : List CategoryT :=
  if isAuthenticated then cats else filterPublicCategories cats

/-- Closed form of a surviving task: it keeps exactly its public subtasks. -/
def pruneTaskT (t : TaskT) : TaskT :=
  { t with subtasks := t.subtasks.filter (fun s => s.public) }

/-- Closed form of a surviving category: it keeps exactly its public tasks,
each pruned to its public subtasks. -/
def pruneCategoryT (c : CategoryT) : CategoryT :=
  { c with tasks := (c.tasks.filter (fun t => t.public)).map pruneTaskT }

/-- Store used to exercise `UpdateSubtask`: one task with subtasks at 0 and 0. -/
def c1DemoDB : DB :=
  { categories := [{ id := "c1", name := "Work", description := "", sortOrder := 0 }],
    tasks := [{ id := "t1", categoryId := "c1", name := "T", description := "",
                completion := 0, sortOrder := 1 }],
    subtasks :=
      [{ id := "s1", taskId := "t1", categoryId := "c1", name := "x",
         description := "", completion := 0, sortOrder := 1 },
       { id := "s2", taskId := "t1", categoryId := "c1", name := "y",
         description := "", completion := 0, sortOrder := 2 }],
    workLogs := [] }

/-- Input of the exercised `UpdateSubtask` call: slide `s2` to 100. -/
def c1DemoSub : SubRow :=
  { id := "s2", taskId := "t1", categoryId := "c1", name := "y",
    description := "", completion := 100, sortOrder := 2 }

/-- Store after the call: the subtasks now sit at 0 and 100, but the task's
stored completion is still 0 — `UpdateSubtask` never writes the tasks table. -/
def c1DemoDB2 : DB :=
  { categories := [{ id := "c1", name := "Work", description := "", sortOrder := 0 }],
    tasks := [{ id := "t1", categoryId := "c1", name := "T", description := "",
                completion := 0, sortOrder := 1 }],
    subtasks :=
      [{ id := "s1", taskId := "t1", categoryId := "c1", name := "x",
         description := "", completion := 0, sortOrder := 1 },
       { id := "s2", taskId := "t1", categoryId := "c1", name := "y",
         description := "", completion := 100, sortOrder := 2 }],
    workLogs := [] }

/-- Expected returned row of the exercised call. -/
def c1DemoU : SubRow :=
  { id := "s2", taskId := "t1", categoryId := "c1", name := "y",
    description := "", completion := 100, sortOrder := 2 }

/-- Store used to exercise `AddSubtask`: a task with independent completion
77 and no subtasks. -/
def c4DemoDB : DB :=
  { categories := [{ id := "c1", name := "Work", description := "", sortOrder := 0 }],
    tasks := [{ id := "t1", categoryId := "c1", name := "T", description := "",
                completion := 77, sortOrder := 1 }],
    subtasks := [],
    workLogs := [] }

/-- Store after `AddSubtask(t1, "New Subtask")`: the new subtask sits at its
default completion 0 while the task's stored completion is still 77 —
`AddSubtask` never writes the tasks table. -/
def c4DemoDB2 : DB :=
  { categories := [{ id := "c1", name := "Work", description := "", sortOrder := 0 }],
    tasks := [{ id := "t1", categoryId := "c1", name := "T", description := "",
                completion := 77, sortOrder := 1 }],
    subtasks := [{ id := "n1", taskId := "t1", categoryId := "c1",
                   name := "New Subtask", description := "", completion := 0,
                   sortOrder := 1 }],
    workLogs := [] }

/-- Expected returned subtask of the exercised call. -/
def c4DemoSub : SubRow :=
  { id := "n1", taskId := "t1", categoryId := "c1", name := "New Subtask",
    description := "", completion := 0, sortOrder := 1 }

/-- Store used to exercise `DeleteSubtask`: one task whose completion 60 is
the aggregate of its single subtask at 60. -/
def c5DemoDB : DB :=
  { categories := [{ id := "c1", name := "Work", description := "", sortOrder := 0 }],
    tasks := [{ id := "t1", categoryId := "c1", name := "T", description := "",
                completion := 60, sortOrder := 1 }],
    subtasks := [{ id := "s1", taskId := "t1", categoryId := "c1", name := "x",
                   description := "", completion := 60, sortOrder := 1 }],
    workLogs := [] }

/-- Store after the exercised deletion: the subtask is gone and the tasks
table is unchanged — the completion stays at its last aggregate, 60. -/
def c5DemoDB2 : DB :=
  { categories := [{ id := "c1", name := "Work", description := "", sortOrder := 0 }],
    tasks := [{ id := "t1", categoryId := "c1", name := "T", description := "",
                completion := 60, sortOrder := 1 }],
    subtasks := [],
    workLogs := [] }

/-- Expected removed row of the exercised deletion. -/
def c5DemoRem : SubRow :=
  { id := "s1", taskId := "t1", categoryId := "c1", name := "x",
    description := "", completion := 60, sortOrder := 1 }

/-- Store used to exercise `DeleteCategory`: a category with a task, its
subtask and a work log, plus an unrelated second category. -/
def c6DemoDB : DB :=
  { categories :=
      [{ id := "c1", name := "Work", description := "", sortOrder := 0 },
       { id := "c2", name := "Home", description := "", sortOrder := 1 }],
    tasks :=
      [{ id := "t1", categoryId := "c1", name := "T", description := "",
         completion := 10, sortOrder := 1 },
       { id := "t2", categoryId := "c2", name := "U", description := "",
         completion := 20, sortOrder := 1 }],
    subtasks := [{ id := "s1", taskId := "t1", categoryId := "c1", name := "x",
                   description := "", completion := 10, sortOrder := 1 }],
    workLogs := [{ id := "w1", categoryId := "c1", taskId := "t1", subtaskId := none,
                   hoursWorked := 2, workDescription := "report", completionEstimate := 10,
                   createdAt := 100 }] }

/-- Expected store after deleting `c1`: only `c2` and its task remain. -/
def c6DemoDB2 : DB :=
  { categories := [{ id := "c2", name := "Home", description := "", sortOrder := 1 }],
    tasks := [{ id := "t2", categoryId := "c2", name := "U", description := "",
                completion := 20, sortOrder := 1 }],
    subtasks := [],
    workLogs := [] }

/-- Expected removed category of the exercised deletion. -/
def c6DemoRC : CatRow :=
  { id := "c1", name := "Work", description := "", sortOrder := 0 }

/-- Store used to exercise `MoveTask`: `t1` lives in `c1`; `c2` holds `t2`
and `t3` at sort orders 0 and 1. -/
def c7DemoDB : DB :=
  { categories :=
      [{ id := "c1", name := "Work", description := "", sortOrder := 0 },
       { id := "c2", name := "Home", description := "", sortOrder := 1 }],
    tasks :=
      [{ id := "t1", categoryId := "c1", name := "A", description := "",
         completion := 5, sortOrder := 1 },
       { id := "t2", categoryId := "c2", name := "B", description := "",
         completion := 6, sortOrder := 0 },
       { id := "t3", categoryId := "c2", name := "C", description := "",
         completion := 7, sortOrder := 1 }],
    subtasks := [],
    workLogs := [] }

/-- The task moved in the exercised call. -/
def c7DemoT : TaskRow :=
  { id := "t1", categoryId := "c1", name := "A", description := "",
    completion := 5, sortOrder := 1 }

/-- Store used to exercise the work-log handlers: task `t1` has a subtask, so
its completion 100 is the aggregate of that subtask. -/
def c8DemoDB : DB :=
  { categories := [{ id := "c1", name := "Work", description := "", sortOrder := 0 }],
    tasks := [{ id := "t1", categoryId := "c1", name := "T", description := "",
                completion := 100, sortOrder := 1 }],
    subtasks := [{ id := "s1", taskId := "t1", categoryId := "c1", name := "x",
                   description := "", completion := 100, sortOrder := 1 }],
    workLogs := [] }

/-- The task row found by the exercised work-log call. -/
def c8DemoT : TaskRow :=
  { id := "t1", categoryId := "c1", name := "T", description := "",
    completion := 100, sortOrder := 1 }

/-- The subtask row found by the exercised work-log calls. -/
def c9DemoS : SubRow :=
  { id := "s1", taskId := "t1", categoryId := "c1", name := "x",
    description := "", completion := 100, sortOrder := 1 }

/-! ### Frame lemmas for the reorder loops -/

theorem reorderTasksAux_length (catID : String) :
    ∀ (ids : List String) (i : Int) (rows : List TaskRow),
    (reorderTasksAux catID ids i rows).length = rows.length := by
  intro ids
  induction ids with
  | nil => intro i rows; rfl
  | cons a rest ih => intro i rows; simp [reorderTasksAux, ih]

theorem reorderSubtasksAux_length (taskID : String) :
    ∀ (ids : List String) (i : Int) (rows : List SubRow),
    (reorderSubtasksAux taskID ids i rows).length = rows.length := by
  intro ids
  induction ids with
  | nil => intro i rows; rfl
  | cons a rest ih => intro i rows; simp [reorderSubtasksAux, ih]

theorem reorderTasksAux_frame (catID : String) :
    ∀ (ids : List String) (i : Int) (rows : List TaskRow) (j : ℕ)
      (hj : j < rows.length) (hj2 : j < (reorderTasksAux catID ids i rows).length),
    ¬ (rows.get ⟨j, hj⟩).categoryId = catID →
    (reorderTasksAux catID ids i rows).get ⟨j, hj2⟩ = rows.get ⟨j, hj⟩ := by
  intro ids
  induction ids with
  | nil => intro i rows j hj hj2 _; rfl
  | cons a rest ih =>
      intro i rows j hj hj2 hcat
      simp only [reorderTasksAux] at hj2 ⊢
      have hjm : j < (rows.map fun r =>
          if r.id = a ∧ r.categoryId = catID then { r with sortOrder := i } else r).length := by
        simpa using hj
      have hrow : (rows.map fun r =>
          if r.id = a ∧ r.categoryId = catID then { r with sortOrder := i } else r).get
            ⟨j, hjm⟩ = rows.get ⟨j, hj⟩ := by
        rw [List.get_map]
        have : ¬ ((rows.get ⟨j, hj⟩).id = a ∧ (rows.get ⟨j, hj⟩).categoryId = catID) := by
          intro h; exact hcat h.2
        simp only [this, if_false]
      rw [ih (i + 1) _ j hjm hj2 (by rw [hrow]; exact hcat)]
      exact hrow

theorem reorderSubtasksAux_frame (taskID : String) :
    ∀ (ids : List String) (i : Int) (rows : List SubRow) (j : ℕ)
      (hj : j < rows.length) (hj2 : j < (reorderSubtasksAux taskID ids i rows).length),
    ¬ (rows.get ⟨j, hj⟩).taskId = taskID →
    (reorderSubtasksAux taskID ids i rows).get ⟨j, hj2⟩ = rows.get ⟨j, hj⟩ := by
  intro ids
  induction ids with
  | nil => intro i rows j hj hj2 _; rfl
  | cons a rest ih =>
      intro i rows j hj hj2 hpar
      simp only [reorderSubtasksAux] at hj2 ⊢
      have hjm : j < (rows.map fun r =>
          if r.id = a ∧ r.taskId = taskID then { r with sortOrder := i } else r).length := by
        simpa using hj
      have hrow : (rows.map fun r =>
          if r.id = a ∧ r.taskId = taskID then { r with sortOrder := i } else r).get
            ⟨j, hjm⟩ = rows.get ⟨j, hj⟩ := by
        rw [List.get_map]
        have : ¬ ((rows.get ⟨j, hj⟩).id = a ∧ (rows.get ⟨j, hj⟩).taskId = taskID) := by
          intro h; exact hpar h.2
        simp only [this, if_false]
      rw [ih (i + 1) _ j hjm hj2 (by rw [hrow]; exact hpar)]
      exact hrow

/-- C10: `ReorderTasks(catID, ids)` only writes to rows whose stored
`category_id` equals `catID`: a row of a different category keeps its entire
record (in particular its `sort_order` and its parent) and its position in
the table, even when its id appears in the supplied list; the same holds for
`ReorderSubtasks(taskID, ids)` with respect to the `task_id` scope. Neither
loop reports an error for such skipped ids. -/
theorem reorder_scoped_to_parent :
    (∀ (catID : String) (ids : List String) (rows : List TaskRow) (j : ℕ)
       (hj : j < rows.length) (hj2 : j < (ReorderTasks catID ids rows).length),
       ¬ (rows.get ⟨j, hj⟩).categoryId = catID →
       (ReorderTasks catID ids rows).get ⟨j, hj2⟩ = rows.get ⟨j, hj⟩) ∧
    (∀ (taskID : String) (ids : List String) (rows : List SubRow) (j : ℕ)
       (hj : j < rows.length) (hj2 : j < (ReorderSubtasks taskID ids rows).length),
       ¬ (rows.get ⟨j, hj⟩).taskId = taskID →
       (ReorderSubtasks taskID ids rows).get ⟨j, hj2⟩ = rows.get ⟨j, hj⟩) :=
  ⟨fun catID ids rows j hj hj2 h => reorderTasksAux_frame catID ids 0 rows j hj hj2 h,
   fun taskID ids rows j hj hj2 h => reorderSubtasksAux_frame taskID ids 0 rows j hj hj2 h⟩

theorem reorder_scoped_to_parent_witness :
    (ReorderTasks "cat2" ["tA", "tB"] frameTaskRows).get ⟨0, by decide⟩ =
      frameTaskRows.get ⟨0, by decide⟩ ∧
    (ReorderSubtasks "task2" ["sA"] frameSubRows).get ⟨0, by decide⟩ =
      frameSubRows.get ⟨0, by decide⟩ :=
  ⟨reorder_scoped_to_parent.1 "cat2" ["tA", "tB"] frameTaskRows 0 (by decide) (by decide)
     (by decide),
   reorder_scoped_to_parent.2 "task2" ["sA"] frameSubRows 0 (by decide) (by decide)
     (by decide)⟩

/-! ### Reading back a densely renumbered sibling set

`Reorder` assigns `sort_order = index` along the supplied id list; a read
sorts by `sort_order`. The generic lemma below shows the read returns the
rows in exactly the supplied id order once every surviving row's
`sort_order` is the index of its id. -/

theorem map_indexOf_self (ids : List String) (h : ids.Nodup) :
    ids.map (fun x => ids.indexOf x) = List.range ids.length := by
  induction ids with
  | nil => rfl
  | cons a rest ih =>
      obtain ⟨ha, hrest⟩ := List.nodup_cons.mp h
      have h1 : rest.map (fun x => (a :: rest).indexOf x) =
          rest.map (fun x => (rest.indexOf x).succ) := by
        apply List.map_congr_left
        intro x hx
        have hxa : a ≠ x := fun e => ha (e ▸ hx)
        exact List.indexOf_cons_ne rest hxa
      calc (a :: rest).map (fun x => (a :: rest).indexOf x)
          = (a :: rest).indexOf a :: rest.map (fun x => (a :: rest).indexOf x) := rfl
        _ = 0 :: rest.map (fun x => (rest.indexOf x).succ) := by
              rw [List.indexOf_cons_self, h1]
        _ = 0 :: (rest.map (fun x => rest.indexOf x)).map Nat.succ := by
              rw [List.map_map]; rfl
        _ = 0 :: (List.range rest.length).map Nat.succ := by rw [ih hrest]
        _ = List.range (a :: rest).length := by
              rw [List.length_cons, List.range_succ_eq_map]

theorem sorted_read_eq_ids {α : Type} (key : α → String) (ord : α → Int)
    (L : List α) (ids : List String) (hnd : ids.Nodup)
    (hperm : List.Perm (L.map key) ids)
    (hord : ∀ r ∈ L, ord r = ((ids.indexOf (key r) : ℕ) : Int)) :
    (List.insertionSort (fun a b => ord a ≤ ord b) L).map key = ids := by
  haveI : IsTotal α (fun a b => ord a ≤ ord b) := ⟨fun a b => Int.le_total _ _⟩
  haveI : IsTrans α (fun a b => ord a ≤ ord b) := ⟨fun _ _ _ h1 h2 => le_trans h1 h2⟩
  set S := List.insertionSort (fun a b => ord a ≤ ord b) L with hSdef
  have hpermSL : List.Perm S L := List.perm_insertionSort _ L
  have hsorted : S.Sorted (fun a b => ord a ≤ ord b) := List.sorted_insertionSort _ L
  have hmapL : L.map ord = (L.map key).map (fun s => ((ids.indexOf s : ℕ) : Int)) := by
    rw [List.map_map]
    exact List.map_congr_left hord
  have hpermOrd : List.Perm (S.map ord)
      ((List.range ids.length).map (fun n : ℕ => (n : Int))) := by
    have h1 : List.Perm (S.map ord) (L.map ord) := hpermSL.map ord
    have h2 : List.Perm ((L.map key).map (fun s => ((ids.indexOf s : ℕ) : Int)))
        (ids.map (fun s => ((ids.indexOf s : ℕ) : Int))) := hperm.map _
    have h3 : ids.map (fun s => ((ids.indexOf s : ℕ) : Int)) =
        (List.range ids.length).map (fun n : ℕ => (n : Int)) := by
      rw [← map_indexOf_self ids hnd, List.map_map]
      exact List.map_congr_left fun x _ => rfl
    rw [hmapL] at h1
    exact (h1.trans h2).trans (h3 ▸ List.Perm.refl _)
  have htargetNodup : ((List.range ids.length).map (fun n : ℕ => (n : Int))).Nodup :=
    (List.nodup_range _).map (fun a b h => by exact_mod_cast h)
  have hns : (S.map ord).Nodup := hpermOrd.symm.nodup htargetNodup
  have hsortedOrd : (S.map ord).Pairwise (· ≤ ·) := List.pairwise_map.mpr hsorted
  have hsortedLt : (S.map ord).Pairwise (· < ·) :=
    (hsortedOrd.and hns).imp (fun h => lt_of_le_of_ne h.1 h.2)
  have hrangeLt : ((List.range ids.length).map (fun n : ℕ => (n : Int))).Pairwise (· < ·) :=
    List.pairwise_map.mpr ((List.pairwise_lt_range _).imp (fun h => by exact_mod_cast h))
  haveI : IsAntisymm Int (· < ·) := ⟨fun _ _ h1 h2 => absurd h2 (lt_asymm h1)⟩
  have hkey : S.map ord = (List.range ids.length).map (fun n : ℕ => (n : Int)) :=
    List.eq_of_perm_of_sorted hpermOrd hsortedLt hrangeLt
  have hlenS : S.length = ids.length := by
    have h1 : S.length = L.length := hpermSL.length_eq
    have h2 : (L.map key).length = ids.length := hperm.length_eq
    rw [List.length_map] at h2
    rw [h1, h2]
  apply List.ext_get
  · rw [List.length_map, hlenS]
  · intro j h1 h2
    have hjS : j < S.length := by simpa using h1
    have hordj : ord (S.get ⟨j, hjS⟩) = (j : Int) := by
      have h5 : (S.map ord).get? j =
          ((List.range ids.length).map (fun n : ℕ => (n : Int))).get? j := by
        rw [hkey]
      rw [List.get?_map, List.get?_map, List.get?_eq_get hjS, List.get?_range h2] at h5
      simpa using h5
    have hmem : S.get ⟨j, hjS⟩ ∈ L := hpermSL.mem_iff.mp (List.get_mem S j hjS)
    have h7 : ids.indexOf (key (S.get ⟨j, hjS⟩)) = j := by
      have h6 : ((ids.indexOf (key (S.get ⟨j, hjS⟩)) : ℕ) : Int) = (j : Int) := by
        rw [← hord _ hmem]; exact hordj
      exact_mod_cast h6
    have hlt : ids.indexOf (key (S.get ⟨j, hjS⟩)) < ids.length := by
      rw [h7]; exact h2
    have h8 : ids.get ⟨ids.indexOf (key (S.get ⟨j, hjS⟩)), hlt⟩ = key (S.get ⟨j, hjS⟩) :=
      List.indexOf_get hlt
    rw [List.get_map, ← h8]
    congr 1
    exact Fin.ext h7

theorem reorderedTask_step (catID a : String) (rest : List String) (ha : a ∉ rest)
    (i : Int) (r : TaskRow) :
    reorderedTask catID rest (i + 1)
      (if r.id = a ∧ r.categoryId = catID then { r with sortOrder := i } else r) =
    reorderedTask catID (a :: rest) i r := by
  by_cases h1 : r.id = a ∧ r.categoryId = catID
  · obtain ⟨hid, hcat⟩ := h1
    rw [if_pos ⟨hid, hcat⟩]
    have hni : ¬ (({ r with sortOrder := i } : TaskRow).id ∈ rest ∧
        ({ r with sortOrder := i } : TaskRow).categoryId = catID) := by
      intro h
      exact ha (hid ▸ h.1)
    rw [reorderedTask, if_neg hni, reorderedTask,
      if_pos ⟨by rw [hid]; exact List.mem_cons_self a rest, hcat⟩]
    have hidx : ((a :: rest).indexOf r.id : ℕ) = 0 := by
      rw [hid, List.indexOf_cons_self]
    rw [hidx]
    simp
  · rw [if_neg h1]
    by_cases hcat : r.categoryId = catID
    · have hid : r.id ≠ a := fun e => h1 ⟨e, hcat⟩
      by_cases hin : r.id ∈ rest
      · rw [reorderedTask, if_pos ⟨hin, hcat⟩, reorderedTask,
          if_pos ⟨List.mem_cons_of_mem a hin, hcat⟩]
        have hidx : ((a :: rest).indexOf r.id : ℕ) = (rest.indexOf r.id).succ :=
          List.indexOf_cons_ne rest (Ne.symm hid)
        rw [hidx]
        have harith : i + 1 + ((rest.indexOf r.id : ℕ) : Int) =
            i + (((rest.indexOf r.id).succ : ℕ) : Int) := by
          push_cast
          ring
        rw [harith]
      · have hni2 : ¬ (r.id ∈ a :: rest ∧ r.categoryId = catID) := by
          intro h
          rcases List.mem_cons.mp h.1 with h2 | h2
          · exact hid h2
          · exact hin h2
        rw [reorderedTask, if_neg (fun h => hin h.1), reorderedTask, if_neg hni2]
    · rw [reorderedTask, if_neg (fun h => hcat h.2), reorderedTask,
        if_neg (fun h => hcat h.2)]

theorem reorderedSub_step (taskID a : String) (rest : List String) (ha : a ∉ rest)
    (i : Int) (r : SubRow) :
    reorderedSub taskID rest (i + 1)
      (if r.id = a ∧ r.taskId = taskID then { r with sortOrder := i } else r) =
    reorderedSub taskID (a :: rest) i r := by
  by_cases h1 : r.id = a ∧ r.taskId = taskID
  · obtain ⟨hid, hcat⟩ := h1
    rw [if_pos ⟨hid, hcat⟩]
    have hni : ¬ (({ r with sortOrder := i } : SubRow).id ∈ rest ∧
        ({ r with sortOrder := i } : SubRow).taskId = taskID) := by
      intro h
      exact ha (hid ▸ h.1)
    rw [reorderedSub, if_neg hni, reorderedSub,
      if_pos ⟨by rw [hid]; exact List.mem_cons_self a rest, hcat⟩]
    have hidx : ((a :: rest).indexOf r.id : ℕ) = 0 := by
      rw [hid, List.indexOf_cons_self]
    rw [hidx]
    simp
  · rw [if_neg h1]
    by_cases hcat : r.taskId = taskID
    · have hid : r.id ≠ a := fun e => h1 ⟨e, hcat⟩
      by_cases hin : r.id ∈ rest
      · rw [reorderedSub, if_pos ⟨hin, hcat⟩, reorderedSub,
          if_pos ⟨List.mem_cons_of_mem a hin, hcat⟩]
        have hidx : ((a :: rest).indexOf r.id : ℕ) = (rest.indexOf r.id).succ :=
          List.indexOf_cons_ne rest (Ne.symm hid)
        rw [hidx]
        have harith : i + 1 + ((rest.indexOf r.id : ℕ) : Int) =
            i + (((rest.indexOf r.id).succ : ℕ) : Int) := by
          push_cast
          ring
        rw [harith]
      · have hni2 : ¬ (r.id ∈ a :: rest ∧ r.taskId = taskID) := by
          intro h
          rcases List.mem_cons.mp h.1 with h2 | h2
          · exact hid h2
          · exact hin h2
        rw [reorderedSub, if_neg (fun h => hin h.1), reorderedSub, if_neg hni2]
    · rw [reorderedSub, if_neg (fun h => hcat h.2), reorderedSub,
        if_neg (fun h => hcat h.2)]

theorem reorderedCat_step (a : String) (rest : List String) (ha : a ∉ rest)
    (i : Int) (r : CatRow) :
    reorderedCat rest (i + 1) (if r.id = a then { r with sortOrder := i } else r) =
    reorderedCat (a :: rest) i r := by
  by_cases h1 : r.id = a
  · rw [if_pos h1]
    have hni : ({ r with sortOrder := i } : CatRow).id ∉ rest := by
      intro h
      exact ha (h1 ▸ h)
    rw [reorderedCat, if_neg hni, reorderedCat,
      if_pos (by rw [h1]; exact List.mem_cons_self a rest)]
    have hidx : ((a :: rest).indexOf r.id : ℕ) = 0 := by
      rw [h1, List.indexOf_cons_self]
    rw [hidx]
    simp
  · rw [if_neg h1]
    by_cases hin : r.id ∈ rest
    · rw [reorderedCat, if_pos hin, reorderedCat,
        if_pos (List.mem_cons_of_mem a hin)]
      have hidx : ((a :: rest).indexOf r.id : ℕ) = (rest.indexOf r.id).succ :=
        List.indexOf_cons_ne rest (Ne.symm h1)
      rw [hidx]
      have harith : i + 1 + ((rest.indexOf r.id : ℕ) : Int) =
          i + (((rest.indexOf r.id).succ : ℕ) : Int) := by
        push_cast
        ring
      rw [harith]
    · have hni2 : r.id ∉ a :: rest := by
        intro h
        rcases List.mem_cons.mp h with h2 | h2
        · exact h1 h2
        · exact hin h2
      rw [reorderedCat, if_neg hin, reorderedCat, if_neg hni2]

theorem reorderTasksAux_eq_map (catID : String) :
    ∀ (ids : List String), ids.Nodup → ∀ (i : Int) (rows : List TaskRow),
    reorderTasksAux catID ids i rows = rows.map (reorderedTask catID ids i) := by
  intro ids
  induction ids with
  | nil =>
      intro _ i rows
      have hmap : rows.map (reorderedTask catID [] i) = rows := by
        have h0 : ∀ r ∈ rows, reorderedTask catID [] i r = id r := by
          intro r _
          rw [reorderedTask, if_neg (fun h => List.not_mem_nil r.id h.1)]
          rfl
        rw [List.map_congr_left h0, List.map_id]
      exact hmap.symm
  | cons a rest ih =>
      intro hnd i rows
      obtain ⟨ha, hrest⟩ := List.nodup_cons.mp hnd
      simp only [reorderTasksAux]
      rw [ih hrest (i + 1), List.map_map]
      apply List.map_congr_left
      intro r _
      exact reorderedTask_step catID a rest ha i r

theorem reorderSubtasksAux_eq_map (taskID : String) :
    ∀ (ids : List String), ids.Nodup → ∀ (i : Int) (rows : List SubRow),
    reorderSubtasksAux taskID ids i rows = rows.map (reorderedSub taskID ids i) := by
  intro ids
  induction ids with
  | nil =>
      intro _ i rows
      have hmap : rows.map (reorderedSub taskID [] i) = rows := by
        have h0 : ∀ r ∈ rows, reorderedSub taskID [] i r = id r := by
          intro r _
          rw [reorderedSub, if_neg (fun h => List.not_mem_nil r.id h.1)]
          rfl
        rw [List.map_congr_left h0, List.map_id]
      exact hmap.symm
  | cons a rest ih =>
      intro hnd i rows
      obtain ⟨ha, hrest⟩ := List.nodup_cons.mp hnd
      simp only [reorderSubtasksAux]
      rw [ih hrest (i + 1), List.map_map]
      apply List.map_congr_left
      intro r _
      exact reorderedSub_step taskID a rest ha i r

theorem reorderCategoriesAux_eq_map :
    ∀ (ids : List String), ids.Nodup → ∀ (i : Int) (rows : List CatRow),
    reorderCategoriesAux ids i rows = rows.map (reorderedCat ids i) := by
  intro ids
  induction ids with
  | nil =>
      intro _ i rows
      have hmap : rows.map (reorderedCat [] i) = rows := by
        have h0 : ∀ r ∈ rows, reorderedCat [] i r = id r := by
          intro r _
          rw [reorderedCat, if_neg (List.not_mem_nil r.id)]
          rfl
        rw [List.map_congr_left h0, List.map_id]
      exact hmap.symm
  | cons a rest ih =>
      intro hnd i rows
      obtain ⟨ha, hrest⟩ := List.nodup_cons.mp hnd
      simp only [reorderCategoriesAux]
      rw [ih hrest (i + 1), List.map_map]
      apply List.map_congr_left
      intro r _
      exact reorderedCat_step a rest ha i r

theorem reorderedTask_categoryId (catID : String) (ids : List String) (b : Int) (r : TaskRow) :
    (reorderedTask catID ids b r).categoryId = r.categoryId := by
  rw [reorderedTask]; split <;> rfl

theorem reorderedTask_id (catID : String) (ids : List String) (b : Int) (r : TaskRow) :
    (reorderedTask catID ids b r).id = r.id := by
  rw [reorderedTask]; split <;> rfl

theorem reorderedSub_taskId (taskID : String) (ids : List String) (b : Int) (r : SubRow) :
    (reorderedSub taskID ids b r).taskId = r.taskId := by
  rw [reorderedSub]; split <;> rfl

theorem reorderedSub_id (taskID : String) (ids : List String) (b : Int) (r : SubRow) :
    (reorderedSub taskID ids b r).id = r.id := by
  rw [reorderedSub]; split <;> rfl

theorem reorderedCat_id (ids : List String) (b : Int) (r : CatRow) :
    (reorderedCat ids b r).id = r.id := by
  rw [reorderedCat]; split <;> rfl

theorem reorder_read_tasks (db : DB) (catID : String) (ids : List String)
    (hnd : ids.Nodup)
    (hperm : List.Perm ((db.tasks.filter (fun r => r.categoryId = catID)).map (fun r => r.id))
      ids) :
    (getTasksForCategory { db with tasks := ReorderTasks catID ids db.tasks } catID).map
      (fun r => r.id) = ids := by
  have hmapform : ReorderTasks catID ids db.tasks =
      db.tasks.map (reorderedTask catID ids 0) :=
    reorderTasksAux_eq_map catID ids hnd 0 db.tasks
  have hfil : (db.tasks.map (reorderedTask catID ids 0)).filter
        (fun t => t.categoryId = catID) =
      (db.tasks.filter (fun t => t.categoryId = catID)).map (reorderedTask catID ids 0) := by
    rw [List.filter_map]
    congr 1
    apply List.filter_congr
    intro x _
    simp [Function.comp, reorderedTask_categoryId]
  have hpkey : List.Perm
      (((db.tasks.filter (fun t => t.categoryId = catID)).map
        (reorderedTask catID ids 0)).map (fun r => r.id)) ids := by
    rw [List.map_map]
    have h0 : (db.tasks.filter (fun t => t.categoryId = catID)).map
        ((fun r : TaskRow => r.id) ∘ reorderedTask catID ids 0) =
        (db.tasks.filter (fun t => t.categoryId = catID)).map (fun r => r.id) :=
      List.map_congr_left fun r _ => reorderedTask_id catID ids 0 r
    rw [h0]
    exact hperm
  have hord : ∀ x ∈ (db.tasks.filter (fun t => t.categoryId = catID)).map
      (reorderedTask catID ids 0),
      x.sortOrder = ((ids.indexOf x.id : ℕ) : Int) := by
    intro x hx
    obtain ⟨r, hr, rfl⟩ := List.mem_map.mp hx
    have hrcat : r.categoryId = catID := by
      have := (List.mem_filter.mp hr).2
      simpa using this
    have hidin : r.id ∈ ids :=
      hperm.mem_iff.mp (List.mem_map_of_mem (fun r => r.id) hr)
    rw [reorderedTask_id]
    rw [reorderedTask, if_pos ⟨hidin, hrcat⟩]
    show (0 : Int) + ((ids.indexOf r.id : ℕ) : Int) = ((ids.indexOf r.id : ℕ) : Int)
    rw [zero_add]
  show (List.insertionSort (fun a b => a.sortOrder ≤ b.sortOrder)
      ((ReorderTasks catID ids db.tasks).filter (fun t => t.categoryId = catID))).map
      (fun r => r.id) = ids
  rw [hmapform, hfil]
  exact sorted_read_eq_ids (fun r : TaskRow => r.id) (fun r => r.sortOrder) _ ids hnd hpkey hord

theorem reorder_read_subtasks (db : DB) (taskID : String) (ids : List String)
    (hnd : ids.Nodup)
    (hperm : List.Perm ((db.subtasks.filter (fun s => s.taskId = taskID)).map (fun s => s.id))
      ids) :
    (getSubtasksForTask { db with subtasks := ReorderSubtasks taskID ids db.subtasks }
      taskID).map (fun s => s.id) = ids := by
  have hmapform : ReorderSubtasks taskID ids db.subtasks =
      db.subtasks.map (reorderedSub taskID ids 0) :=
    reorderSubtasksAux_eq_map taskID ids hnd 0 db.subtasks
  have hfil : (db.subtasks.map (reorderedSub taskID ids 0)).filter
        (fun s => s.taskId = taskID) =
      (db.subtasks.filter (fun s => s.taskId = taskID)).map (reorderedSub taskID ids 0) := by
    rw [List.filter_map]
    congr 1
    apply List.filter_congr
    intro x _
    simp [Function.comp, reorderedSub_taskId]
  have hpkey : List.Perm
      (((db.subtasks.filter (fun s => s.taskId = taskID)).map
        (reorderedSub taskID ids 0)).map (fun s => s.id)) ids := by
    rw [List.map_map]
    have h0 : (db.subtasks.filter (fun s => s.taskId = taskID)).map
        ((fun s : SubRow => s.id) ∘ reorderedSub taskID ids 0) =
        (db.subtasks.filter (fun s => s.taskId = taskID)).map (fun s => s.id) :=
      List.map_congr_left fun r _ => reorderedSub_id taskID ids 0 r
    rw [h0]
    exact hperm
  have hord : ∀ x ∈ (db.subtasks.filter (fun s => s.taskId = taskID)).map
      (reorderedSub taskID ids 0),
      x.sortOrder = ((ids.indexOf x.id : ℕ) : Int) := by
    intro x hx
    obtain ⟨r, hr, rfl⟩ := List.mem_map.mp hx
    have hrpar : r.taskId = taskID := by
      have := (List.mem_filter.mp hr).2
      simpa using this
    have hidin : r.id ∈ ids :=
      hperm.mem_iff.mp (List.mem_map_of_mem (fun s => s.id) hr)
    rw [reorderedSub_id]
    rw [reorderedSub, if_pos ⟨hidin, hrpar⟩]
    show (0 : Int) + ((ids.indexOf r.id : ℕ) : Int) = ((ids.indexOf r.id : ℕ) : Int)
    rw [zero_add]
  show (List.insertionSort (fun a b => a.sortOrder ≤ b.sortOrder)
      ((ReorderSubtasks taskID ids db.subtasks).filter (fun s => s.taskId = taskID))).map
      (fun s => s.id) = ids
  rw [hmapform, hfil]
  exact sorted_read_eq_ids (fun s : SubRow => s.id) (fun s => s.sortOrder) _ ids hnd hpkey hord

theorem reorder_read_categories (db : DB) (ids : List String)
    (hnd : ids.Nodup)
    (hperm : List.Perm (db.categories.map (fun c => c.id)) ids) :
    (GetCategoriesOrdered { db with categories := ReorderCategories ids db.categories }).map
      (fun c => c.id) = ids := by
  have hmapform : ReorderCategories ids db.categories =
      db.categories.map (reorderedCat ids 0) :=
    reorderCategoriesAux_eq_map ids hnd 0 db.categories
  have hpkey : List.Perm ((db.categories.map (reorderedCat ids 0)).map (fun c => c.id)) ids := by
    rw [List.map_map]
    have h0 : db.categories.map ((fun c : CatRow => c.id) ∘ reorderedCat ids 0) =
        db.categories.map (fun c => c.id) :=
      List.map_congr_left fun r _ => reorderedCat_id ids 0 r
    rw [h0]
    exact hperm
  have hord : ∀ x ∈ db.categories.map (reorderedCat ids 0),
      x.sortOrder = ((ids.indexOf x.id : ℕ) : Int) := by
    intro x hx
    obtain ⟨r, hr, rfl⟩ := List.mem_map.mp hx
    have hidin : r.id ∈ ids :=
      hperm.mem_iff.mp (List.mem_map_of_mem (fun c => c.id) hr)
    rw [reorderedCat_id]
    rw [reorderedCat, if_pos hidin]
    show (0 : Int) + ((ids.indexOf r.id : ℕ) : Int) = ((ids.indexOf r.id : ℕ) : Int)
    rw [zero_add]
  show (List.insertionSort (fun a b => a.sortOrder ≤ b.sortOrder)
      (ReorderCategories ids db.categories)).map (fun c => c.id) = ids
  rw [hmapform]
  exact sorted_read_eq_ids (fun c : CatRow => c.id) (fun c => c.sortOrder) _ ids hnd hpkey hord

/-- C3: for each of the three levels, calling `Reorder` with a duplicate-free
permutation of the complete current sibling id set of one parent and then
reading the siblings back (`ORDER BY sort_order ASC`, scoped to that parent)
returns them in exactly the supplied order. -/
theorem reorder_permutation_read_back :
    (∀ (db : DB) (catID : String) (ids : List String), ids.Nodup →
      List.Perm ((db.tasks.filter (fun r => r.categoryId = catID)).map (fun r => r.id)) ids →
      (getTasksForCategory { db with tasks := ReorderTasks catID ids db.tasks } catID).map
        (fun r => r.id) = ids) ∧
    (∀ (db : DB) (taskID : String) (ids : List String), ids.Nodup →
      List.Perm ((db.subtasks.filter (fun s => s.taskId = taskID)).map (fun s => s.id)) ids →
      (getSubtasksForTask { db with subtasks := ReorderSubtasks taskID ids db.subtasks }
        taskID).map (fun s => s.id) = ids) ∧
    (∀ (db : DB) (ids : List String), ids.Nodup →
      List.Perm (db.categories.map (fun c => c.id)) ids →
      (GetCategoriesOrdered { db with categories := ReorderCategories ids db.categories }).map
        (fun c => c.id) = ids) :=
  ⟨fun db catID ids hnd hperm => reorder_read_tasks db catID ids hnd hperm,
   fun db taskID ids hnd hperm => reorder_read_subtasks db taskID ids hnd hperm,
   fun db ids hnd hperm => reorder_read_categories db ids hnd hperm⟩

theorem reorder_permutation_read_back_witness :
    (getTasksForCategory
        { reorderDemoDB with tasks := ReorderTasks "c1" ["t3", "t1", "t2"] reorderDemoDB.tasks }
        "c1").map (fun r => r.id) = ["t3", "t1", "t2"] ∧
    (getSubtasksForTask
        { reorderDemoDB with subtasks := ReorderSubtasks "t1" ["s2", "s1"] reorderDemoDB.subtasks }
        "t1").map (fun s => s.id) = ["s2", "s1"] ∧
    (GetCategoriesOrdered
        { reorderDemoDB with categories := ReorderCategories ["c2", "c1"] reorderDemoDB.categories }).map
        (fun c => c.id) = ["c2", "c1"] :=
  ⟨reorder_permutation_read_back.1 reorderDemoDB "c1" ["t3", "t1", "t2"] (by decide) (by decide),
   reorder_permutation_read_back.2.1 reorderDemoDB "t1" ["s2", "s1"] (by decide) (by decide),
   reorder_permutation_read_back.2.2 reorderDemoDB ["c2", "c1"] (by decide) (by decide)⟩

/-! ### Lemmas about the visibility filter -/

theorem filterPublicSubtasks_eq (l : List SubtaskT) :
    filterPublicSubtasks l = l.filter (fun s => s.public) := by
  induction l with
  | nil => rfl
  | cons s rest ih =>
      by_cases h : s.public <;>
        simp [filterPublicSubtasks, List.filter_cons, h, ih]

theorem filterPublicTasks_eq (l : List TaskT) :
    filterPublicTasks l = (l.filter (fun t => t.public)).map pruneTaskT := by
  induction l with
  | nil => rfl
  | cons t rest ih =>
      by_cases h : t.public <;>
        simp [filterPublicTasks, List.filter_cons, h, ih, filterPublicSubtasks_eq,
          pruneTaskT]

theorem filterPublicCategories_eq (l : List CategoryT) :
    filterPublicCategories l = (l.filter (fun c => c.public)).map pruneCategoryT := by
  induction l with
  | nil => rfl
  | cons c rest ih =>
      by_cases h : c.public <;>
        simp [filterPublicCategories, List.filter_cons, h, ih, filterPublicTasks_eq,
          pruneCategoryT]

/-- C1 (code bug): the store performs no parent-completion recompute.
Evaluating `UpdateSubtask` at a task whose subtasks thereby come to sit at 0
and 100 leaves the task's stored completion at 0, although the arithmetic
mean of its subtasks' completions, truncated toward zero, is 50 — against
the spec's invariant (its §8.1 example is exactly 0,100 giving 50) and the
README's "automatically calculated as the average of all its subtasks". -/
theorem update_subtask_leaves_completion_stale :
    UpdateSubtask c1DemoDB c1DemoSub = some (c1DemoDB2, c1DemoU) ∧
    c1DemoDB2.tasks.map (fun t => t.completion) = [0] ∧
    subtaskCompletions c1DemoDB2 "t1" = [0, 100] ∧
    Int.tdiv (subtaskCompletions c1DemoDB2 "t1").sum
      (subtaskCompletions c1DemoDB2 "t1").length = 50 ∧
    ¬ (0 : Int) = 50 := by
  refine ⟨by decide, by decide, by decide, by decide, by decide⟩

/-- C2: with `isAuthenticated = true` the tree is returned unchanged, and with
`isAuthenticated = false` the result keeps exactly the public categories, in
which exactly the public tasks survive (so a non-public task is dropped even
inside a public category while its public sibling tasks stay, in their order),
and each surviving task keeps exactly its public subtasks; a non-public
category disappears together with all of its descendants. -/
theorem filter_public_visibility (cats : List CategoryT) :
    handleIndexVisible true cats = cats ∧
    handleIndexVisible false cats =
      (cats.filter (fun c => c.public)).map pruneCategoryT :=
  ⟨rfl, filterPublicCategories_eq cats⟩

/-- C4 (code bug): `AddSubtask` on a task with zero subtasks and an
independently-set completion of 77 inserts the new subtask (at its default
completion 0) and leaves the task's stored completion at 77 — it is not
overwritten with the aggregate of the one-element child list (0), against
the spec's independent-to-aggregate transition (§4.1, §8.2). -/
theorem add_subtask_leaves_completion_stale :
    c4DemoDB.subtasks.filter (fun s => s.taskId = "t1") = [] ∧
    AddSubtask c4DemoDB "t1" "n1" "New Subtask" = some (c4DemoDB2, c4DemoSub) ∧
    c4DemoSub.completion = 0 ∧
    c4DemoDB2.tasks.map (fun t => t.completion) = [77] ∧
    ¬ (77 : Int) = 0 := by
  refine ⟨by decide, by decide, by decide, by decide, by decide⟩

/-- C5: deleting a task's only subtask removes that subtask row and leaves
the tasks table entirely unchanged — in particular the owning task keeps its
stored completion, its last computed aggregate value; the deletion does not
reset it to 0. -/
theorem DeleteSubtask_retains_task_completion (db : DB) (sid : String)
    (db2 : DB) (rem : SubRow)
    (h : DeleteSubtask db sid = some (db2, rem))
    (hone : db.subtasks.filter (fun s => s.taskId = rem.taskId) = [rem]) :
    db2.tasks = db.tasks ∧ rem ∉ db2.subtasks := by
  rw [DeleteSubtask] at h
  cases hfind : db.subtasks.find? (fun r => r.id = sid) with
  | none => rw [hfind] at h; exact absurd h (by simp)
  | some removed =>
      rw [hfind] at h
      simp only [Option.some.injEq, Prod.mk.injEq] at h
      obtain ⟨hdb2, hrem⟩ := h
      have hremid : rem.id = sid := by
        rw [← hrem]
        have := List.find?_some hfind
        simpa using this
      constructor
      · rw [← hdb2]
      · intro hmem
        rw [← hdb2] at hmem
        have h2 := List.mem_filter.mp hmem
        have hni : ¬ rem.id = sid := by simpa using h2.2
        exact hni hremid

theorem delete_last_subtask_retains_witness :
    DeleteSubtask c5DemoDB "s1" = some (c5DemoDB2, c5DemoRem) ∧
    c5DemoDB2.tasks = c5DemoDB.tasks ∧
    c5DemoRem ∉ c5DemoDB2.subtasks ∧
    c5DemoDB2.tasks.map (fun t => t.completion) = [60] :=
  ⟨by decide,
   (DeleteSubtask_retains_task_completion c5DemoDB "s1" c5DemoDB2 c5DemoRem
     (by decide) (by decide)).1,
   (DeleteSubtask_retains_task_completion c5DemoDB "s1" c5DemoDB2 c5DemoRem
     (by decide) (by decide)).2,
   by decide⟩

/-- C6: `DeleteCategory(id)` removes the category and, through the schema's
`ON DELETE CASCADE` foreign keys, every descendant task, subtask, and work
log; a subsequent `GetTask` on any former child task reports `NotFound`
(modelled by `none`). -/
theorem DeleteCategory_cascades (db : DB) (cid : String) (db2 : DB) (rc : CatRow)
    (h : DeleteCategory db cid = some (db2, rc))
    (hnodup : (db.tasks.map (fun t => t.id)).Nodup) :
    (∀ c ∈ db2.categories, ¬ c.id = cid) ∧
    (∀ t ∈ db.tasks, t.categoryId = cid → GetTask db2 t.id = none) ∧
    (∀ s ∈ db.subtasks, s.categoryId = cid → s ∉ db2.subtasks) ∧
    (∀ w ∈ db.workLogs, w.categoryId = cid → w ∉ db2.workLogs) := by
  rw [DeleteCategory] at h
  cases hfind : db.categories.find? (fun c => c.id = cid) with
  | none => rw [hfind] at h; exact absurd h (by simp)
  | some removed =>
      rw [hfind] at h
      simp only [Option.some.injEq, Prod.mk.injEq] at h
      obtain ⟨hdb2, hrc⟩ := h
      refine ⟨?_, ?_, ?_, ?_⟩
      · intro c hc
        rw [← hdb2] at hc
        have := List.mem_filter.mp hc
        simpa using this.2
      · intro t ht htcat
        rw [GetTask, List.find?_eq_none]
        intro x hx
        rw [← hdb2] at hx
        have hx2 := List.mem_filter.mp hx
        have hxcat : ¬ x.categoryId = cid := by simpa using hx2.2
        intro hxid
        have hxid2 : x.id = t.id := by simpa using hxid
        have hxt : x = t :=
          List.inj_on_of_nodup_map hnodup hx2.1 ht hxid2
        rw [hxt] at hxcat
        exact hxcat htcat
      · intro s hs hscat hs2
        rw [← hdb2] at hs2
        have hs3 := List.mem_filter.mp hs2
        have : ¬ (s.categoryId = cid ∨ s.taskId ∈
            (db.tasks.filter (fun t => t.categoryId = cid)).map (fun t => t.id)) := by
          simpa using hs3.2
        exact this (Or.inl hscat)
      · intro w hw hwcat hw2
        rw [← hdb2] at hw2
        have hw3 := List.mem_filter.mp hw2
        have : ¬ (w.categoryId = cid ∨ w.taskId ∈
            (db.tasks.filter (fun t => t.categoryId = cid)).map (fun t => t.id) ∨
            (∃ sid, w.subtaskId = some sid ∧ sid ∈
              (db.subtasks.filter (fun s => s.categoryId = cid ∨ s.taskId ∈
                (db.tasks.filter (fun t => t.categoryId = cid)).map (fun t => t.id))).map
                (fun s => s.id))) := by
          simpa using hw3.2
        exact this (Or.inl hwcat)

theorem delete_category_cascades_witness :
    DeleteCategory c6DemoDB "c1" = some (c6DemoDB2, c6DemoRC) ∧
    (∀ t ∈ c6DemoDB.tasks, t.categoryId = "c1" → GetTask c6DemoDB2 t.id = none) ∧
    GetTask c6DemoDB2 "t1" = none :=
  ⟨by decide,
   (DeleteCategory_cascades c6DemoDB "c1" c6DemoDB2 c6DemoRC (by decide) (by decide)).2.1,
   by decide⟩

/-! ### Lemmas about moving a task -/

theorem moveShiftPass_id (c : String) (i : Int) (r : TaskRow) :
    (moveShiftPass c i r).id = r.id := by
  rw [moveShiftPass]; split <;> rfl

theorem moveShiftPass_categoryId (c : String) (i : Int) (r : TaskRow) :
    (moveShiftPass c i r).categoryId = r.categoryId := by
  rw [moveShiftPass]; split <;> rfl

theorem moveAssignPass_id (tid c : String) (i : Int) (r : TaskRow) :
    (moveAssignPass tid c i r).id = r.id := by
  rw [moveAssignPass]; split <;> rfl

/-- C7: for a task `t` stored in category `catA`, `MoveTask(t.id, catB, 0)`
re-parents `t` into `catB` with `sort_order = 0` while every pre-existing
`catB` sibling (all at non-negative `sort_order`) is shifted up by one, so
that reading `catB` back returns the moved row — `t` with its new parent and
`sort_order = 0` — as the first task, and reading `catA` back no longer
contains any row with `t`'s id. -/
theorem MoveTask_to_front (db : DB) (t : TaskRow) (catA catB : String)
    (ht : t ∈ db.tasks) (htcat : t.categoryId = catA) (hAB : ¬ catA = catB)
    (hnodup : (db.tasks.map (fun x => x.id)).Nodup)
    (hpos : ∀ r ∈ db.tasks, r.categoryId = catB → 0 ≤ r.sortOrder) :
    (getTasksForCategory (MoveTask db t.id catB 0) catB).head? =
      some { t with categoryId := catB, sortOrder := 0 } ∧
    ∀ r ∈ getTasksForCategory (MoveTask db t.id catB 0) catA, ¬ r.id = t.id := by
  haveI : IsTotal TaskRow (fun a b => a.sortOrder ≤ b.sortOrder) :=
    ⟨fun a b => Int.le_total _ _⟩
  haveI : IsTrans TaskRow (fun a b => a.sortOrder ≤ b.sortOrder) :=
    ⟨fun _ _ _ h1 h2 => le_trans h1 h2⟩
  have hform : (MoveTask db t.id catB 0).tasks =
      db.tasks.map (fun r => moveAssignPass t.id catB 0 (moveShiftPass catB 0 r)) := by
    show (db.tasks.map (moveShiftPass catB 0)).map (moveAssignPass t.id catB 0) = _
    rw [List.map_map]
    rfl
  have hFid : ∀ r : TaskRow,
      (moveAssignPass t.id catB 0 (moveShiftPass catB 0 r)).id = r.id := by
    intro r
    rw [moveAssignPass_id, moveShiftPass_id]
  have hFt : moveAssignPass t.id catB 0 (moveShiftPass catB 0 t) =
      { t with categoryId := catB, sortOrder := 0 } := by
    have h1 : moveShiftPass catB 0 t = t := by
      rw [moveShiftPass, if_neg]
      intro hcon
      exact hAB (by rw [← htcat]; exact hcon.1)
    rw [h1, moveAssignPass, if_pos rfl]
  have huniq : ∀ x ∈ (MoveTask db t.id catB 0).tasks, x.id = t.id →
      x = { t with categoryId := catB, sortOrder := 0 } := by
    intro x hx hxid
    rw [hform] at hx
    obtain ⟨y, hy, hfy⟩ := List.mem_map.mp hx
    have hyid : y.id = t.id := by
      rw [← hfy] at hxid
      rw [hFid y] at hxid
      exact hxid
    have hyt : y = t := List.inj_on_of_nodup_map hnodup hy ht hyid
    rw [← hfy, hyt]
    exact hFt
  have hmem_t2 : ({ t with categoryId := catB, sortOrder := 0 } : TaskRow) ∈
      (MoveTask db t.id catB 0).tasks := by
    rw [hform]
    exact hFt ▸ List.mem_map_of_mem _ ht
  have hothers : ∀ x ∈ (MoveTask db t.id catB 0).tasks, x.categoryId = catB →
      ¬ x.id = t.id → 1 ≤ x.sortOrder := by
    intro x hx hxcat hxid
    rw [hform] at hx
    obtain ⟨y, hy, hfy⟩ := List.mem_map.mp hx
    have hyid : ¬ y.id = t.id := by
      intro e
      apply hxid
      rw [← hfy, hFid y]
      exact e
    have hassign : moveAssignPass t.id catB 0 (moveShiftPass catB 0 y) =
        moveShiftPass catB 0 y := by
      rw [moveAssignPass, if_neg]
      rw [moveShiftPass_id]
      exact hyid
    have hycat : y.categoryId = catB := by
      rw [← moveShiftPass_categoryId catB 0 y, ← hassign, hfy]
      exact hxcat
    have hy0 : 0 ≤ y.sortOrder := hpos y hy hycat
    have hshift : moveShiftPass catB 0 y = { y with sortOrder := y.sortOrder + 1 } := by
      rw [moveShiftPass, if_pos ⟨hycat, hy0⟩]
    rw [← hfy, hassign, hshift]
    show 1 ≤ y.sortOrder + 1
    omega
  constructor
  · have hmem_f : ({ t with categoryId := catB, sortOrder := 0 } : TaskRow) ∈
        (MoveTask db t.id catB 0).tasks.filter (fun r => r.categoryId = catB) := by
      apply List.mem_filter.mpr
      exact ⟨hmem_t2, by simp⟩
    have hmem_s : ({ t with categoryId := catB, sortOrder := 0 } : TaskRow) ∈
        getTasksForCategory (MoveTask db t.id catB 0) catB := by
      rw [getTasksForCategory]
      exact (List.mem_insertionSort _).mpr hmem_f
    have hsorted : (getTasksForCategory (MoveTask db t.id catB 0) catB).Sorted
        (fun a b => a.sortOrder ≤ b.sortOrder) := List.sorted_insertionSort _ _
    cases hread : getTasksForCategory (MoveTask db t.id catB 0) catB with
    | nil => rw [hread] at hmem_s; exact absurd hmem_s (List.not_mem_nil _)
    | cons hd tl =>
        rw [hread] at hmem_s hsorted
        have hhd_f : hd ∈ (MoveTask db t.id catB 0).tasks.filter
            (fun r => r.categoryId = catB) := by
          have : hd ∈ getTasksForCategory (MoveTask db t.id catB 0) catB := by
            rw [hread]; exact List.mem_cons_self hd tl
          rw [getTasksForCategory] at this
          exact (List.mem_insertionSort _).mp this
        have hhd2 := List.mem_filter.mp hhd_f
        have hhd_cat : hd.categoryId = catB := by simpa using hhd2.2
        have hhd_t : hd = { t with categoryId := catB, sortOrder := 0 } := by
          by_cases hhd_id : hd.id = t.id
          · exact huniq hd hhd2.1 hhd_id
          · exfalso
            have h1le : 1 ≤ hd.sortOrder := hothers hd hhd2.1 hhd_cat hhd_id
            rcases List.mem_cons.mp hmem_s with he | hmem_tl
            · apply hhd_id
              rw [← he]
            · have hle := List.rel_of_sorted_cons hsorted _ hmem_tl
              show False
              have : hd.sortOrder ≤ (0 : Int) := hle
              omega
        rw [List.head?_cons, hhd_t]
  · intro r hr hid
    rw [getTasksForCategory] at hr
    have hr2 := List.mem_filter.mp ((List.mem_insertionSort _).mp hr)
    have hrcat : r.categoryId = catA := by simpa using hr2.2
    have hrt := huniq r hr2.1 hid
    rw [hrt] at hrcat
    exact hAB (by rw [← hrcat])

theorem move_task_to_front_witness :
    (getTasksForCategory (MoveTask c7DemoDB "t1" "c2" 0) "c2").head? =
      some { c7DemoT with categoryId := "c2", sortOrder := 0 } ∧
    (∀ r ∈ getTasksForCategory (MoveTask c7DemoDB "t1" "c2" 0) "c1", ¬ r.id = "t1") ∧
    (getTasksForCategory (MoveTask c7DemoDB "t1" "c2" 0) "c2").map (fun r => r.id) =
      ["t1", "t2", "t3"] :=
  ⟨(MoveTask_to_front c7DemoDB c7DemoT "c1" "c2" (by decide) (by decide) (by decide)
      (by decide) (by decide)).1,
   (MoveTask_to_front c7DemoDB c7DemoT "c1" "c2" (by decide) (by decide) (by decide)
      (by decide) (by decide)).2,
   by decide⟩

/-- Counterexample to C8 as stated: `t1` has one subtask and its aggregated
completion is 100, yet a direct work-log request against it with a valid
form and estimate 5 is accepted by `handleCreateTaskWorkLog` — which checks
only that the numeric fields parse, never whether the task has subtasks —
and the store overwrites the task's completion with 5. -/
theorem work_log_on_aggregated_task_cex :
    (c8DemoDB.subtasks.filter (fun s => s.taskId = "t1")).length = 1 ∧
    c8DemoDB.tasks.map (fun t => t.completion) = [100] ∧
    (handleCreateTaskWorkLog c8DemoDB "t1" "w1" (some 1) (some 5) "hacking" false none
        1000).map (fun p => p.1.tasks.map (fun t => t.completion)) = some [5] ∧
    ¬ (handleCreateTaskWorkLog c8DemoDB "t1" "w1" (some 1) (some 5) "hacking" false none
        1000) = none := by
  refine ⟨by decide, by decide, by decide, by decide⟩

/-- C8 (amended): the web layer does not reject or ignore a direct work-log
entry against a task that currently has subtasks: whenever the numeric form
fields parse and the task exists, `handleCreateTaskWorkLog` succeeds — even
when the task's subtask list is non-empty — and the task's stored
(aggregated) completion is overwritten with the work-log's completion
estimate. -/
theorem handleCreateTaskWorkLog_overwrites_aggregate (db : DB) (taskID newID : String)
    (hours : ℚ) (est : Int) (descr : String) (useCT : Bool) (pt : Option Int) (now : Int)
    (t0 : TaskRow) (hfind : db.tasks.find? (fun t => t.id = taskID) = some t0)
    (hsubs : db.subtasks.filter (fun s => s.taskId = taskID) ≠ []) :
    (handleCreateTaskWorkLog db taskID newID (some hours) (some est) descr useCT pt
      now).isSome = true ∧
    ∀ db2 wl, handleCreateTaskWorkLog db taskID newID (some hours) (some est) descr useCT pt
        now = some (db2, wl) →
      ∀ t ∈ db2.tasks, t.id = taskID → t.completion = est := by
  have hrun : handleCreateTaskWorkLog db taskID newID (some hours) (some est) descr useCT pt
      now = AddWorkLogForTask db newID taskID hours descr est now
        (if useCT then pt else none) := rfl
  constructor
  · rw [hrun, AddWorkLogForTask, hfind]
    rfl
  · intro db2 wl h
    rw [hrun, AddWorkLogForTask, hfind] at h
    simp only [Option.some.injEq, Prod.mk.injEq] at h
    obtain ⟨hdb2, _⟩ := h
    intro t ht htid
    rw [← hdb2] at ht
    have ht2 : t ∈ db.tasks.map (fun x =>
        if x.id = taskID then { x with completion := est } else x) := ht
    obtain ⟨x, hx, hfx⟩ := List.mem_map.mp ht2
    by_cases hxid : x.id = taskID
    · have hxt : ({ x with completion := est } : TaskRow) = t := by
        rw [← hfx]
        show _ = (if x.id = taskID then _ else x)
        rw [if_pos hxid]
      rw [← hxt]
    · have hxt : x = t := by
        rw [← hfx]
        show _ = (if x.id = taskID then _ else x)
        rw [if_neg hxid]
      rw [← hxt] at htid
      exact absurd htid hxid

theorem work_log_overwrites_aggregate_witness :
    (handleCreateTaskWorkLog c8DemoDB "t1" "w1" (some 1) (some 5) "hacking" false none
      1000).isSome = true ∧
    (∀ db2 wl, handleCreateTaskWorkLog c8DemoDB "t1" "w1" (some 1) (some 5) "hacking" false
        none 1000 = some (db2, wl) →
      ∀ t ∈ db2.tasks, t.id = "t1" → t.completion = 5) :=
  ⟨(handleCreateTaskWorkLog_overwrites_aggregate c8DemoDB "t1" "w1" 1 5 "hacking" false
      none 1000 c8DemoT (by decide) (by decide)).1,
   (handleCreateTaskWorkLog_overwrites_aggregate c8DemoDB "t1" "w1" 1 5 "hacking" false
      none 1000 c8DemoT (by decide) (by decide)).2⟩

/-- C9: a created work log's `created_at` is the insertion time `now` when no
explicit timestamp is supplied, and the caller-supplied timestamp when one
is — for both `AddWorkLogForTask` and `AddWorkLogForSubtask` — so an entry
can be back-dated. -/
theorem work_log_created_at (db : DB) (newID taskID subID : String) (hours : ℚ)
    (descr : String) (est : Int) (now : Int) (explicitTime : Option Int)
    (t0 : TaskRow) (hfind : db.tasks.find? (fun t => t.id = taskID) = some t0)
    (s0 : SubRow) (hfinds : db.subtasks.find? (fun s => s.id = subID) = some s0) :
    (AddWorkLogForTask db newID taskID hours descr est now explicitTime).map
      (fun p => p.2.createdAt) = some (explicitTime.getD now) ∧
    (AddWorkLogForSubtask db newID subID hours descr est now explicitTime).map
      (fun p => p.2.createdAt) = some (explicitTime.getD now) := by
  constructor
  · rw [AddWorkLogForTask, hfind]
    rfl
  · rw [AddWorkLogForSubtask, hfinds]
    rfl

theorem work_log_created_at_witness :
    (AddWorkLogForTask c8DemoDB "w2" "t1" 1 "d" 40 1111 none).map
      (fun p => p.2.createdAt) = some 1111 ∧
    (AddWorkLogForTask c8DemoDB "w2" "t1" 1 "d" 40 1111 (some 42)).map
      (fun p => p.2.createdAt) = some 42 ∧
    (AddWorkLogForSubtask c8DemoDB "w3" "s1" 1 "d" 40 1111 (some 42)).map
      (fun p => p.2.createdAt) = some 42 :=
  ⟨(work_log_created_at c8DemoDB "w2" "t1" "s1" 1 "d" 40 1111 none c8DemoT (by decide)
      c9DemoS (by decide)).1,
   (work_log_created_at c8DemoDB "w2" "t1" "s1" 1 "d" 40 1111 (some 42) c8DemoT (by decide)
      c9DemoS (by decide)).1,
   (work_log_created_at c8DemoDB "w3" "t1" "s1" 1 "d" 40 1111 (some 42) c8DemoT (by decide)
      c9DemoS (by decide)).2⟩

end Compass
